import Mathlib

/-!
Verification of the data-dictionary core of the EMR-Mental-Health repository
(`src/Code/DataDictionary.hpp`): `createDataDictionary`, `inferType` and
`isValidDate`, shallowly embedded over an explicit tagged cell-value type.
-/

set_option maxRecDepth 2000

/-- A raw cell value as inspected by the source at runtime: the loop in
`inferType` dispatches on the runtime tag (`typeid(v).name()` being
`string` or `number`, or the object being a concrete date), `null` and the
absent (`undefined`) marker match no branch. -/
inductive RawValue where
  | null
  | absent
  | str (s : String)
  | num (x : Int)
  | date (ms : Int)
  | boolean (b : Bool)
deriving DecidableEq, Repr

/-- Modelled from the spec: the source tests a textual date by calling the
host date parser (`new Date(str)` followed by a NaN check on `getTime`),
which is not code of this repository. Following the description of a
permissive, locale-stable parser, we model the ECMAScript-mandated Date
Time String Format restricted to calendar dates: exactly `YYYY-MM-DD`
with four, two and two decimal digits, month between 01 and 12 and day
between 01 and 31. -/
def isValidDate (s : String) : Bool :=
  match s.toList with
  | [y1, y2, y3, y4, '-', m1, m2, '-', d1, d2] =>
    (y1.isDigit && y2.isDigit && y3.isDigit && y4.isDigit &&
     m1.isDigit && m2.isDigit && d1.isDigit && d2.isDigit) &&
    (let m := (m1.toNat - 48) * 10 + (m2.toNat - 48)
     let d := (d1.toNat - 48) * 10 + (d2.toNat - 48)
     decide (1 ≤ m) && decide (m ≤ 12) && decide (1 ≤ d) && decide (d ≤ 31))
  | _ => false

/-- Modelled from the spec: the source tests numerals with the host calls
`isNaN(parseFloat(v))`, which are not code of this repository. ECMAScript
fully specifies `parseFloat`: the result is NaN exactly when, after
leading whitespace and an optional sign, the string neither starts with a
decimal digit, nor with a dot followed by a decimal digit, nor with the
literal `Infinity`. This predicate returns `true` exactly in the NaN
case. -/
def parseFloatIsNaN (s : String) : Bool :=
  let cs := s.toList.dropWhile (fun c =>
    c == ' ' || c == '\t' || c == '\n' || c == '\r')
  let cs := match cs with
    | '+' :: rest => rest
    | '-' :: rest => rest
    | _ => cs
  match cs with
  | [] => true
  | c :: rest =>
    if c.isDigit then false
    else if c == '.' then
      match rest with
      | [] => true
      | d :: _ => !d.isDigit
    else !(cs.take 8 == "Infinity".toList)

/-- `v.toLowerCase()` of the source, as a character-wise lowercase map
(our token comparisons only involve ASCII). -/
def toLowerCase (s : String) : String :=
  String.mk (s.toList.map Char.toLower)

/-- The boolean-token test of the source:
`["true","false","yes","no"].includes(v.toLowerCase())`. -/
def isBoolToken (s : String) : Bool :=
  ["true", "false", "yes", "no"].contains (toLowerCase s)

/-- The three mutable hypothesis flags of `inferType`
(`bool isNum = true, isDate = true, isBool = true`). -/
structure Flags where
  isNum : Bool
  isDate : Bool
  isBool : Bool
deriving DecidableEq, Repr

/-- One iteration of the loop body of `inferType`: dispatch on the runtime
tag of the value; a textual value is checked against all three
hypotheses, a concrete number clears only `isBool`, a concrete date
clears `isNum` and `isBool`, every other tag (boolean, null, undefined)
matches no branch and leaves the flags unchanged. -/
def stepFlags (f : Flags) (v : RawValue) : Flags :=
  match v with
  | .str s =>
    { isDate := f.isDate && isValidDate s,
      isBool := f.isBool && isBoolToken s,
      isNum := f.isNum && !(parseFloatIsNaN s) }
  | .num _ => { f with isBool := false }
  | .date _ => { f with isNum := false, isBool := false }
  | .boolean _ => f
  | .null => f
  | .absent => f

/-- `inferType` of the source: an empty input returns no value at all
(the bare `return;` yields the undefined value, modelled as `none`);
otherwise the three hypothesis flags are folded over the values in order
and the precedence chain Date, Numeric, Boolean, String picks the
result. -/
def inferType (values : List RawValue) : Option String :=
  if values.isEmpty then none
  else
    let f := values.foldl stepFlags ⟨true, true, true⟩
    if f.isDate then some "Date"
    else if f.isNum then some "Numeric"
    else if f.isBool then some "Boolean"
    else some "String"

/-- The missing-value test of the source filter
`v !== "" && v !== null` (negated): a value is missing exactly when it is
the empty string or null. -/
def isMissing (v : RawValue) : Bool :=
  v == .str "" || v == .null

/-- First-seen-order deduplication with an accumulator of already seen
values; `dedupFS` below instantiates it with an empty accumulator, which
is how `[...new Set(nonEmpty)]` behaves: keep the first occurrence of
each value, in encounter order. -/
def dedupAux : List RawValue → List RawValue → List RawValue
  | _, [] => []
  | seen, a :: l =>
    if a ∈ seen then dedupAux seen l
    else a :: dedupAux (a :: seen) l

/-- `[...new Set(l)]`: the distinct values of `l` in first-seen order. -/
def dedupFS (l : List RawValue) : List RawValue :=
  dedupAux [] l

/-- `const SAMPLE_ROWS = 10;` of the source. -/
def SAMPLE_ROWS : Nat := 10

/-- Reading cell `c` of a row: out of range gives the undefined marker,
as subscripting does in the source language. -/
def cellAt (r : List RawValue) (c : Nat) : RawValue :=
  r.getD c .absent

/-- The row appended to the dictionary sheet for one column, minus the
header cell layout: field name, inferred data type, empty description
placeholder, example value, missing count, and the unique-values sample
(the source joins the sample with a comma for sheet output; we keep the
list it joins). -/
structure DictRecord where
  fieldName : RawValue
  dataType : Option String
  description : String
  exampleValue : RawValue
  missingCount : Nat
  uniqueValuesSample : List RawValue
deriving DecidableEq, Repr

/-- The per-column body of `headers.forEach((header, col) => ...)` in
`createDataDictionary`: extract the column, filter out missing values,
infer the type, take the first non-missing value as example (the empty
string when there is none), count the missing cells, and sample at most
ten distinct values. -/
def buildRecord (rows : List (List RawValue)) (col : Nat)
    (header : RawValue) : DictRecord :=
  let columnValues := rows.map (fun r => cellAt r col)
  let nonEmpty := columnValues.filter (fun v => !(isMissing v))
  { fieldName := header,
    dataType := inferType nonEmpty,
    description := "",
    exampleValue := nonEmpty.headD (.str ""),
    missingCount := columnValues.length - nonEmpty.length,
    uniqueValuesSample := (dedupFS nonEmpty).take 10 }

/-- `createDataDictionary` of the source, with the sheet I/O replaced by
explicit value passing: `data` is `getDataRange().getValues()` (header
row first), fewer than two rows throws `Data sheet has no rows.`,
otherwise the header row is `data[0]`, the sampled rows are
`data.slice(1, 1 + SAMPLE_ROWS)`, and one dictionary row is appended per
header, in header order. -/
def createDataDictionary (data : List (List RawValue)) :
    Except String (List DictRecord) :=
  if data.length < 2 then .error "Data sheet has no rows."
  else
    let headers := data.headD []
    let rows := (data.drop 1).take SAMPLE_ROWS
    .ok (headers.enum.map (fun p => buildRecord rows p.1 p.2))

/-- Whether a value satisfies the date hypothesis: a textual value must
pass `isValidDate`; every other tag leaves `isDate` untouched. -/
def dateOK : RawValue → Bool
  | .str s => isValidDate s
  | _ => true

/-- Whether a value satisfies the numeric hypothesis: a textual value
must not make `parseFloat` return NaN; a concrete date clears `isNum`;
every other tag leaves it untouched. -/
def numOK : RawValue → Bool
  | .str s => !(parseFloatIsNaN s)
  | .date _ => false
  | _ => true

/-- Whether a value satisfies the boolean hypothesis: a textual value
must be one of the four boolean tokens; concrete numbers and dates clear
`isBool`; every other tag leaves it untouched. -/
def boolOK : RawValue → Bool
  | .str s => isBoolToken s
  | .num _ => false
  | .date _ => false
  | _ => true

/-- The non-missing sampled values of column `c`, as
`createDataDictionary` computes them. -/
def colNonEmpty (data : List (List RawValue)) (c : Nat) : List RawValue :=
  ((((data.drop 1).take SAMPLE_ROWS).map (fun r => cellAt r c)).filter
    (fun v => !(isMissing v)))

/-- Default record used by positional lookup with a default. -/
instance : Inhabited DictRecord :=
  ⟨⟨.null, none, "", .str "", 0, []⟩⟩

/-- Tag test: the value is a concrete boolean. -/
def isBooleanTag : RawValue → Bool
  | .boolean _ => true
  | _ => false

/-- Tag test: the value is a concrete number. -/
def isNumberTag : RawValue → Bool
  | .num _ => true
  | _ => false

theorem stepFlags_eq (f : Flags) (v : RawValue) :
    stepFlags f v =
      ⟨f.isNum && numOK v, f.isDate && dateOK v, f.isBool && boolOK v⟩ := by
  cases v <;> simp [stepFlags, numOK, dateOK, boolOK]

theorem foldl_stepFlags (values : List RawValue) (f : Flags) :
    values.foldl stepFlags f =
      ⟨f.isNum && values.all numOK, f.isDate && values.all dateOK,
       f.isBool && values.all boolOK⟩ := by
  induction values generalizing f with
  | nil => simp
  | cons a l ih =>
    simp only [List.foldl_cons, List.all_cons, ih, stepFlags_eq, Bool.and_assoc]

theorem inferType_char (values : List RawValue) (h : values ≠ []) :
    inferType values =
      some (if values.all dateOK then "Date"
            else if values.all numOK then "Numeric"
            else if values.all boolOK then "Boolean"
            else "String") := by
  cases values with
  | nil => exact absurd rfl h
  | cons a l =>
    simp only [inferType, List.isEmpty_cons, Bool.false_eq_true, if_false,
      foldl_stepFlags, Bool.true_and]
    split_ifs <;> rfl

theorem dedupAux_sublist (l : List RawValue) :
    ∀ seen, (dedupAux seen l).Sublist l := by
  induction l with
  | nil => intro seen; simp [dedupAux]
  | cons a l ih =>
    intro seen
    simp only [dedupAux]
    by_cases h : a ∈ seen
    · rw [if_pos h]
      exact (ih seen).trans (List.sublist_cons_self a l)
    · rw [if_neg h]
      exact (ih (a :: seen)).cons₂ a

theorem dedupAux_nodup (l : List RawValue) :
    ∀ seen, (dedupAux seen l).Nodup ∧ ∀ x ∈ dedupAux seen l, x ∉ seen := by
  induction l with
  | nil => intro seen; simp [dedupAux]
  | cons a l ih =>
    intro seen
    simp only [dedupAux]
    by_cases h : a ∈ seen
    · rw [if_pos h]; exact ih seen
    · rw [if_neg h]
      obtain ⟨h1, h2⟩ := ih (a :: seen)
      refine ⟨List.nodup_cons.mpr
        ⟨fun hx => h2 a hx (List.mem_cons_self a seen), h1⟩, ?_⟩
      intro x hx
      rcases List.mem_cons.mp hx with rfl | hx'
      · exact h
      · intro hxs
        exact h2 x hx' (List.mem_cons_of_mem a hxs)

theorem dedupFS_nodup (l : List RawValue) : (dedupFS l).Nodup :=
  (dedupAux_nodup l []).1

theorem dedupFS_sublist (l : List RawValue) : (dedupFS l).Sublist l :=
  dedupAux_sublist l []

theorem createDataDictionary_of_ok (data : List (List RawValue))
    (recs : List DictRecord) (h : createDataDictionary data = .ok recs) :
    2 ≤ data.length ∧
      recs = (data.headD []).enum.map
        (fun p => buildRecord ((data.drop 1).take SAMPLE_ROWS) p.1 p.2) := by
  by_cases hlen : data.length < 2
  · unfold createDataDictionary at h
    rw [if_pos hlen] at h
    exact absurd h (by simp)
  · unfold createDataDictionary at h
    rw [if_neg hlen] at h
    exact ⟨Nat.not_lt.mp hlen, (Except.ok.inj h).symm⟩

theorem records_getD (headers : List RawValue) (rows : List (List RawValue))
    (c : Nat) (hlen : c < headers.length) :
    ((headers.enum.map fun p => buildRecord rows p.1 p.2).getD c default) =
      buildRecord rows c (headers.get ⟨c, hlen⟩) := by
  simp [List.getD_eq_getElem?_getD, List.getElem?_map, List.getElem?_enum,
    List.getElem?_eq_getElem hlen]

/-- C1: the claim says an empty input yields the `String` category; the
code instead takes the early exit `if (values.empty()) return;`, which
returns no category at all (the undefined value), contradicting both the
spec and the declaration comment `@return Inferred data type as a
string`. This theorem evaluates the code at the failing input. -/
theorem inferType_empty_undefined :
    inferType [] = none ∧ inferType [] ≠ some "String" :=
  ⟨rfl, by decide⟩

/-- The dataset of the scenario in the spec: headers id, signup_date,
active, and three sampled rows of textual cells. -/
def scenarioData : List (List RawValue) :=
  [[.str "id", .str "signup_date", .str "active"],
   [.str "1", .str "2024-01-05", .str "yes"],
   [.str "2", .str "not-a-date", .str "no"],
   [.str "3", .str "2024-03-10", .str "maybe"]]

/-- C2: on the scenario dataset, `createDataDictionary` infers Numeric
for the id column and String for the signup_date column (the second
value disconfirms the date hypothesis) and for the active column (the
third value disconfirms the boolean hypothesis). -/
theorem scenario_dataTypes :
    Except.map (fun recs => recs.map (fun r => (r.fieldName, r.dataType)))
        (createDataDictionary scenarioData) =
      .ok [(.str "id", some "Numeric"),
           (.str "signup_date", some "String"),
           (.str "active", some "String")] := by
  rfl

/-- C3: on a non-empty input the returned category is a function of the
final hypothesis flags alone, under the fixed precedence Date, then
Numeric, then Boolean, then String, first surviving hypothesis wins. -/
theorem inferType_precedence (values : List RawValue) (h : values ≠ []) :
    inferType values =
      some (if values.all dateOK then "Date"
            else if values.all numOK then "Numeric"
            else if values.all boolOK then "Boolean"
            else "String") :=
  inferType_char values h

/-- Witness for C3 at the concrete input `[num 1]`. -/
theorem inferType_precedence_witness :
    inferType [RawValue.num 1] =
      some (if [RawValue.num 1].all dateOK then "Date"
            else if [RawValue.num 1].all numOK then "Numeric"
            else if [RawValue.num 1].all boolOK then "Boolean"
            else "String") :=
  inferType_precedence [RawValue.num 1] (by decide)

/-- C4: the inferred category is invariant under permutation of the
input values; only the multiset of values matters. -/
theorem inferType_perm_invariant (l1 l2 : List RawValue)
    (h : l1.Perm l2) : inferType l1 = inferType l2 := by
  by_cases h1 : l1 = []
  · subst h1
    rw [List.Perm.eq_nil h.symm]
  · have h2 : l2 ≠ [] := fun he => h1 (by rw [he] at h; exact h.eq_nil)
    have hall : ∀ p : RawValue → Bool, l1.all p = l2.all p := by
      intro p
      apply Bool.eq_iff_iff.mpr
      simp only [List.all_eq_true]
      exact ⟨fun H x hx => H x (h.mem_iff.mpr hx),
             fun H x hx => H x (h.mem_iff.mp hx)⟩
    rw [inferType_char l1 h1, inferType_char l2 h2,
      hall dateOK, hall numOK, hall boolOK]

/-- Witness for C4 at a concrete transposition. -/
theorem inferType_perm_invariant_witness :
    inferType [RawValue.str "1", RawValue.str "yes"] =
      inferType [RawValue.str "yes", RawValue.str "1"] :=
  inferType_perm_invariant [RawValue.str "1", RawValue.str "yes"]
    [RawValue.str "yes", RawValue.str "1"] (List.Perm.swap _ _ _)

/-- C5: every emitted record's unique-values sample equals the first-seen
deduplication of the column's non-missing values truncated to the first
ten distinct entries; hence it has length at most ten, no duplicates,
and preserves the order of occurrence (it is a sublist of the column's
non-missing values). -/
theorem uniqueValuesSample_spec (data : List (List RawValue))
    (recs : List DictRecord) (c : Nat)
    (h : createDataDictionary data = .ok recs) (hc : c < recs.length) :
    (recs.getD c default).uniqueValuesSample =
        (dedupFS (colNonEmpty data c)).take 10 ∧
      (recs.getD c default).uniqueValuesSample.length ≤ 10 ∧
      (recs.getD c default).uniqueValuesSample.Nodup ∧
      (recs.getD c default).uniqueValuesSample.Sublist
        (colNonEmpty data c) := by
  obtain ⟨-, rfl⟩ := createDataDictionary_of_ok data recs h
  have hlen : c < (data.headD []).length := by
    simpa [List.enum_length] using hc
  rw [records_getD (data.headD []) _ c hlen]
  refine ⟨rfl, List.length_take_le _ _, ?_, ?_⟩
  · exact (dedupFS_nodup _).sublist (List.take_sublist _ _)
  · exact (List.take_sublist _ _).trans (dedupFS_sublist _)

/-- Witness for C5 on the scenario dataset, column 0. -/
def scenarioRecs : List DictRecord :=
  [⟨.str "id", some "Numeric", "", .str "1", 0,
      [.str "1", .str "2", .str "3"]⟩,
   ⟨.str "signup_date", some "String", "", .str "2024-01-05", 0,
      [.str "2024-01-05", .str "not-a-date", .str "2024-03-10"]⟩,
   ⟨.str "active", some "String", "", .str "yes", 0,
      [.str "yes", .str "no", .str "maybe"]⟩]

/-- Witness for C5 at the scenario dataset, column 0. -/
theorem uniqueValuesSample_spec_witness :
    (scenarioRecs.getD 0 default).uniqueValuesSample =
        (dedupFS (colNonEmpty scenarioData 0)).take 10 ∧
      (scenarioRecs.getD 0 default).uniqueValuesSample.length ≤ 10 ∧
      (scenarioRecs.getD 0 default).uniqueValuesSample.Nodup ∧
      (scenarioRecs.getD 0 default).uniqueValuesSample.Sublist
        (colNonEmpty scenarioData 0) :=
  uniqueValuesSample_spec scenarioData scenarioRecs 0 rfl (by decide)

/-- C6: for every emitted record, the missing count plus the number of
non-missing sampled values of its column equals the number of sampled
rows. -/
theorem missingCount_partition (data : List (List RawValue))
    (recs : List DictRecord) (c : Nat)
    (h : createDataDictionary data = .ok recs) (hc : c < recs.length) :
    (recs.getD c default).missingCount + (colNonEmpty data c).length =
      ((data.drop 1).take SAMPLE_ROWS).length := by
  obtain ⟨-, rfl⟩ := createDataDictionary_of_ok data recs h
  have hlen : c < (data.headD []).length := by
    simpa [List.enum_length] using hc
  rw [records_getD (data.headD []) _ c hlen]
  show (((data.drop 1).take SAMPLE_ROWS).map (fun r => cellAt r c)).length -
      (colNonEmpty data c).length + (colNonEmpty data c).length = _
  have hle : (colNonEmpty data c).length ≤
      (((data.drop 1).take SAMPLE_ROWS).map (fun r => cellAt r c)).length :=
    List.length_filter_le _ _
  rw [List.length_map] at hle ⊢
  omega

/-- Witness for C6 at the scenario dataset, column 2. -/
theorem missingCount_partition_witness :
    (scenarioRecs.getD 2 default).missingCount +
        (colNonEmpty scenarioData 2).length =
      ((scenarioData.drop 1).take SAMPLE_ROWS).length :=
  missingCount_partition scenarioData scenarioRecs 2 rfl (by decide)

/-- C7: a dataset holding only its header row makes
`createDataDictionary` raise the empty-data error and emit no records. -/
theorem createDataDictionary_empty_error (headers : List RawValue) :
    createDataDictionary [headers] = .error "Data sheet has no rows." :=
  rfl

/-- C8: a successful run emits exactly one record per column, in header
order: mapping each record to its field name recovers the header row. -/
theorem records_match_headers (data : List (List RawValue))
    (recs : List DictRecord) (h : createDataDictionary data = .ok recs) :
    recs.map DictRecord.fieldName = data.headD [] ∧
      recs.length = (data.headD []).length := by
  obtain ⟨-, rfl⟩ := createDataDictionary_of_ok data recs h
  have hmap : ((data.headD []).enum.map
        (fun p => buildRecord ((data.drop 1).take SAMPLE_ROWS) p.1 p.2)).map
          DictRecord.fieldName = data.headD [] := by
    rw [List.map_map]
    have hfun : (DictRecord.fieldName ∘ fun p : Nat × RawValue =>
        buildRecord ((data.drop 1).take SAMPLE_ROWS) p.1 p.2) = Prod.snd := by
      funext p
      rfl
    rw [hfun, List.enum_map_snd]
  refine ⟨hmap, ?_⟩
  simp

/-- Witness for C8 at the scenario dataset. -/
theorem records_match_headers_witness :
    scenarioRecs.map DictRecord.fieldName = scenarioData.headD [] ∧
      scenarioRecs.length = (scenarioData.headD []).length :=
  records_match_headers scenarioData scenarioRecs rfl

/-- C9: a non-empty input of values that are all concrete booleans
matches no branch of the per-value inspection, so all three hypotheses
survive and the Date precedence case fires. -/
theorem inferType_all_boolean_date (l : List RawValue) (h1 : l ≠ [])
    (h2 : l.all isBooleanTag = true) : inferType l = some "Date" := by
  have hd : l.all dateOK = true := by
    rw [List.all_eq_true] at h2 ⊢
    intro x hx
    have hb := h2 x hx
    cases x <;> simp_all [isBooleanTag, dateOK]
  rw [inferType_char l h1, if_pos hd]

/-- Witness for C9 at the single concrete boolean value `true`. -/
theorem inferType_all_boolean_date_witness :
    inferType [RawValue.boolean true] = some "Date" :=
  inferType_all_boolean_date [RawValue.boolean true] (by decide) (by decide)

/-- C10: a non-empty input of values that are all concrete numbers
clears only the boolean hypothesis, so the date hypothesis survives and
wins the precedence over Numeric. -/
theorem inferType_all_number_date (l : List RawValue) (h1 : l ≠ [])
    (h2 : l.all isNumberTag = true) :
    inferType l = some "Date" ∧ inferType l ≠ some "Numeric" := by
  have hd : l.all dateOK = true := by
    rw [List.all_eq_true] at h2 ⊢
    intro x hx
    have hb := h2 x hx
    cases x <;> simp_all [isNumberTag, dateOK]
  have hres : inferType l = some "Date" := by
    rw [inferType_char l h1, if_pos hd]
  refine ⟨hres, ?_⟩
  rw [hres]
  decide

/-- Witness for C10 at the single concrete numeric value 7. -/
theorem inferType_all_number_date_witness :
    inferType [RawValue.num 7] = some "Date" ∧
      inferType [RawValue.num 7] ≠ some "Numeric" :=
  inferType_all_number_date [RawValue.num 7] (by decide) (by decide)
